import Mathlib

/-!
Shallow embedding of the sentence-embedding system's core
(src/database.py and src/search_index.py) and proofs of the spec claims.

Modelling conventions:
- SQLite rows become Lean structures held in lists in insertion order;
  AUTOINCREMENT primary keys become explicit next-id counters.
- numpy float32 vectors become `List Int` (exact integers stand in for
  the float payload; only lengths, equalities and order comparisons of
  scores matter to the claims, never fractional values).  The blob
  round-trip `tobytes` / `frombuffer(dtype=float32)` is the identity on
  the model.
- The FAISS flat inner-product index becomes an explicit list of row
  vectors with an exact top-k search; FAISS's padding of missing
  results with ordinal -1 is modelled explicitly.
- Python exceptions swallowed by `try/except` blocks become explicit
  outcome values; functions that cannot raise are total.
-/

namespace SentenceEmbedding

/-- Row of the `documents` table (src/database.py, init_database). -/
structure DocumentRec where
  id : Nat
  filename : String
  file_path : String
deriving Repr, DecidableEq

/-- Row of the `sentences` table (src/database.py, init_database); the
`embedding` BLOB column is nullable, hence an `Option`. -/
structure SentenceRec where
  id : Nat
  document_id : Nat
  sentence_text : String
  sentence_index : Nat
  embedding : Option (List Int)
deriving Repr, DecidableEq

/-- State of the SQLite store managed by `EmbeddingDatabase`
(src/database.py).  `next_doc_id` and `next_sentence_id` model the
AUTOINCREMENT counters of the two tables. -/
structure EmbeddingDatabase where
  documents : List DocumentRec
  sentences : List SentenceRec
  next_doc_id : Nat
  next_sentence_id : Nat
deriving Repr, DecidableEq

/-- Fresh store right after `init_database`. -/
def EmbeddingDatabase.empty : EmbeddingDatabase :=
  { documents := [], sentences := [], next_doc_id := 1, next_sentence_id := 1 }

/-- EmbeddingDatabase.add_document (src/database.py lines 50-64): INSERT
the new document; on the UNIQUE(file_path) IntegrityError, SELECT and
return the existing id instead.  Returns the updated store and the id. -/
def EmbeddingDatabase.add_document (db : EmbeddingDatabase)
    (filename file_path : String) : EmbeddingDatabase × Nat :=
  match db.documents.find? (fun d => d.file_path == file_path) with
  | some d => (db, d.id)
  | none =>
      ({ db with
          documents := db.documents ++ [⟨db.next_doc_id, filename, file_path⟩],
          next_doc_id := db.next_doc_id + 1 },
       db.next_doc_id)

/-- EmbeddingDatabase.add_sentence_embedding (src/database.py lines
66-77): serializes the vector with `tobytes()` and INSERTs the row.  The
source performs no dimension check of any kind. -/
def EmbeddingDatabase.add_sentence_embedding (db : EmbeddingDatabase)
    (document_id : Nat) (sentence_text : String) (sentence_index : Nat)
    (embedding : List Int) : EmbeddingDatabase :=
  { db with
      sentences := db.sentences ++
        [⟨db.next_sentence_id, document_id, sentence_text, sentence_index,
          some embedding⟩],
      next_sentence_id := db.next_sentence_id + 1 }

/-- EmbeddingDatabase.get_all_embeddings (src/database.py lines 158-175;
this later definition shadows the one at lines 79-89, so the effective
query is `SELECT s.id, s.embedding FROM sentences s WHERE s.embedding IS
NOT NULL ORDER BY s.id`).  Rows with a non-null embedding, sorted by
ascending sentence id. -/
def EmbeddingDatabase.get_all_embeddings (db : EmbeddingDatabase) :
    List (Nat × List Int) :=
  ((db.sentences.filter (fun s => s.embedding.isSome)).insertionSort
      (fun a b => a.id ≤ b.id)).filterMap
    (fun s => s.embedding.map (fun v => (s.id, v)))

/-- Hydrated sentence record as returned by
EmbeddingDatabase.get_sentence_by_id (src/database.py lines 91-111). -/
structure SentenceInfo where
  id : Nat
  text : String
  index : Nat
  filename : String
  file_path : String
deriving Repr, DecidableEq

/-- EmbeddingDatabase.get_sentence_by_id (src/database.py lines 91-111):
SELECT joining `sentences` with `documents`; `None` when the sentence id
is absent or its document is missing (the JOIN yields no row). -/
def EmbeddingDatabase.get_sentence_by_id (db : EmbeddingDatabase)
    (sentence_id : Nat) : Option SentenceInfo :=
  match db.sentences.find? (fun s => s.id == sentence_id) with
  | none => none
  | some s =>
      match db.documents.find? (fun d => d.id == s.document_id) with
      | none => none
      | some d =>
          some ⟨s.id, s.sentence_text, s.sentence_index, d.filename,
                d.file_path⟩

/-- Counts reported by EmbeddingDatabase.get_stats (src/database.py
lines 138-156). -/
structure Stats where
  documents : Nat
  sentences : Nat
  embeddings : Nat
deriving Repr, DecidableEq

/-- EmbeddingDatabase.get_stats (src/database.py lines 138-156): row
counts of the two tables and of sentences whose embedding is non-null. -/
def EmbeddingDatabase.get_stats (db : EmbeddingDatabase) : Stats :=
  ⟨db.documents.length, db.sentences.length,
   (db.sentences.filter (fun s => s.embedding.isSome)).length⟩

/-- EmbeddingDatabase.clear_database (src/database.py lines 129-136):
DELETE every sentence and document (AUTOINCREMENT counters persist). -/
def EmbeddingDatabase.clear_database (db : EmbeddingDatabase) :
    EmbeddingDatabase :=
  { db with documents := [], sentences := [] }

/-- In-memory FAISS IndexFlatIP (inner-product metric), as used by
SimilaritySearchIndex with index_type "flat" (src/search_index.py line
47): a dimension and the contiguous matrix of added row vectors. -/
structure FaissFlatIndex where
  dim : Nat
  vectors : List (List Int)
deriving Repr, DecidableEq

/-- Inner product of two vectors, FAISS's IP metric. -/
def dot (a b : List Int) : Int :=
  (List.zipWith (fun x y => x * y) a b).sum

/-- Score FAISS pads missing results with under the IP metric
(numerically -FLT_MAX; any value works since padded entries carry the
ordinal sentinel -1 and are never inspected further). -/
def paddingScore : Int := -(10 ^ 40 : Int)

/-- FaissFlatIndex search: index.search(query, k) (called at
src/search_index.py line 144).  The FAISS python wrapper asserts that
the query width equals the index dimension (raising on mismatch, hence
`none`); otherwise it returns exactly k (score, ordinal) pairs: the
vectors scored by inner product, sorted by descending score, truncated
to k and padded with ordinal -1 when fewer than k vectors exist. -/
def FaissFlatIndex.searchK (idx : FaissFlatIndex) (query : List Int)
    (k : Nat) : Option (List (Int × Int)) :=
  if query.length = idx.dim then
    let scored := idx.vectors.enum.map
      (fun p => (dot query p.2, (p.1 : Int)))
    let sorted := scored.insertionSort (fun a b => b.1 ≤ a.1)
    some (sorted.take k ++
      List.replicate (k - sorted.length) (paddingScore, -1))
  else
    none

/-- On-disk artifacts of SimilaritySearchIndex: the `.faiss` file written
by faiss.write_index and the `_mapping.pkl` pickle holding id_mapping and
dimension (src/search_index.py lines 73-87).  `none` models a missing
file. -/
structure Disk where
  index_file : Option FaissFlatIndex
  mapping_file : Option (List (Nat × Nat) × Option Nat)
deriving Repr, DecidableEq

/-- Disk with neither artifact present. -/
def Disk.empty : Disk := ⟨none, none⟩

/-- State of a SimilaritySearchIndex instance (src/search_index.py lines
12-18): the backing store, the two artifact paths' contents, the
in-memory index (None until built or loaded), the ordinal-to-sentence-id
mapping, and the remembered dimension. -/
structure Engine where
  db : EmbeddingDatabase
  disk : Disk
  index : Option FaissFlatIndex
  id_mapping : List (Nat × Nat)
  dimension : Option Nat
deriving Repr, DecidableEq

/-- SimilaritySearchIndex.save_index (src/search_index.py lines 73-87)
as it runs on the build path, where self.index is the freshly built
index: writes both artifact files. -/
def Disk.save (m : List (Nat × Nat)) (d : Option Nat)
    (idx : FaissFlatIndex) : Disk :=
  ⟨some idx, some (m, d)⟩

/-- SimilaritySearchIndex.build_index with the default index_type "flat"
(src/search_index.py lines 20-71): reads all embeddings; with zero rows
logs and returns False, mutating nothing; otherwise stacks the vectors
(np.vstack raises on ragged lengths, which the enclosing broad `except`
turns into a False return before any attribute was assigned), records
the dimension from the matrix shape, builds the flat index over all
vectors in store order, sets id_mapping from enumerate, saves both
artifacts, and returns True. -/
def Engine.build_index (e : Engine) : Engine × Bool :=
  match e.db.get_all_embeddings with
  | [] => (e, false)
  | (_, v0) :: _ =>
      let ed := e.db.get_all_embeddings
      if ed.all (fun p => p.2.length = v0.length) then
        let dim := v0.length
        let idx : FaissFlatIndex := ⟨dim, ed.map (fun p => p.2)⟩
        let m := ed.enum.map (fun p => (p.1, p.2.1))
        ({ e with
            index := some idx,
            id_mapping := m,
            dimension := some dim,
            disk := Disk.save m (some dim) idx },
         true)
      else
        (e, false)

/-- SimilaritySearchIndex.load_index (src/search_index.py lines 89-126):
fails (False) when either artifact file is missing; otherwise reads the
index and the pickle, installing index, id_mapping and dimension. -/
def Engine.load_index (e : Engine) : Engine × Bool :=
  match e.disk.index_file, e.disk.mapping_file with
  | some idx, some md =>
      ({ e with index := some idx, id_mapping := md.1, dimension := md.2 },
       true)
  | _, _ => (e, false)

/-- Search result dictionary assembled at src/search_index.py lines
160-164: the hydrated sentence info plus similarity_score and rank. -/
structure SearchResult where
  info : SentenceInfo
  similarity_score : Int
  rank : Nat
deriving Repr, DecidableEq

/-- Python dict lookup self.id_mapping.get(idx) (src/search_index.py
line 155); the mapping's keys are the natural ordinals assigned by
enumerate, the probe is the (possibly negative) FAISS ordinal. -/
def mappingGet (m : List (Nat × Nat)) (idx : Int) : Option Nat :=
  (m.find? (fun p => (p.1 : Int) == idx)).map (fun p => p.2)

/-- Result-assembly loop of SimilaritySearchIndex.search
(src/search_index.py lines 146-164): iterates over the raw (score,
ordinal) hits with the enumerate counter i; skips ordinal -1, then
scores below threshold, then unmapped ordinals, then sentences the store
cannot hydrate; surviving hits yield a result carrying rank i+1. -/
def processHits (db : EmbeddingDatabase) (m : List (Nat × Nat))
    (threshold : Int) : Nat → List (Int × Int) → List SearchResult
  | _, [] => []
  | i, (score, idx) :: rest =>
      if idx = -1 then
        processHits db m threshold (i + 1) rest
      else if score < threshold then
        processHits db m threshold (i + 1) rest
      else
        match mappingGet m idx with
        | none => processHits db m threshold (i + 1) rest
        | some sid =>
            match db.get_sentence_by_id sid with
            | none => processHits db m threshold (i + 1) rest
            | some info =>
                ⟨info, score, i + 1⟩ :: processHits db m threshold (i + 1) rest

/-- Outcome of a SimilaritySearchIndex.search call.  The three return
sites of the source are distinguishable: `unavailable` is the early
return [] after a failed lazy load (src/search_index.py lines 131-134,
logging "索引未加载"), `failed` is the catch-all `except` returning []
(lines 168-170, logging "搜索失败"), and `ok` is the normal return. -/
inductive SearchOutcome where
  | unavailable : SearchOutcome
  | failed : SearchOutcome
  | ok : List SearchResult → SearchOutcome
deriving Repr, DecidableEq

/-- List of results the caller receives from each outcome: both failure
paths return the empty list. -/
def SearchOutcome.results : SearchOutcome → List SearchResult
  | .unavailable => []
  | .failed => []
  | .ok rs => rs

/-- Search body inside the try block, once an index is present: run the
native FAISS search (whose dimension assert the except turns into an
empty return) and assemble results (src/search_index.py lines 136-170). -/
def searchLoaded (db : EmbeddingDatabase) (m : List (Nat × Nat))
    (idx : FaissFlatIndex) (query : List Int) (k : Nat)
    (threshold : Int) : SearchOutcome :=
  match idx.searchK query k with
  | none => .failed
  | some hits => .ok (processHits db m threshold 0 hits)

/-- SimilaritySearchIndex.search (src/search_index.py lines 128-170):
with no in-memory index, attempt one lazy load and return [] on failure;
then run the native search and the result-assembly loop. -/
def Engine.search (e : Engine) (query : List Int) (k : Nat)
    (threshold : Int) : Engine × SearchOutcome :=
  match e.index with
  | some idx => (e, searchLoaded e.db e.id_mapping idx query k threshold)
  | none =>
      let le := e.load_index
      if le.2 then
        match le.1.index with
        | some idx =>
            (le.1, searchLoaded le.1.db le.1.id_mapping idx query k threshold)
        | none => (le.1, .failed)
      else
        (le.1, .unavailable)

/-- SimilaritySearchIndex.rebuild_index (src/search_index.py lines
189-203): unconditionally clear the in-memory index and mapping, delete
both artifact files if present, then run a fresh build. -/
def Engine.rebuild_index (e : Engine) : Engine × Bool :=
  Engine.build_index
    { e with index := none, id_mapping := [], disk := Disk.empty }

/-- Cluster-count computation of the "ivf" branch of
SimilaritySearchIndex.build_index (src/search_index.py line 50):
nlist = min(100, len(embeddings) // 10). -/
def ivfNlist (vectorCount : Nat) : Nat :=
  min 100 (vectorCount / 10)

/-- Modelled from the spec (section 4.2): the cluster-count formula the
spec claims, "n_lists = min(100, floor(vector_count / 10))" with "minimum
1 list"; stated for comparison with the source's `ivfNlist`. -/
def specNlist (vectorCount : Nat) : Nat :=
  max 1 (min 100 (vectorCount / 10))

/-- Raw (score, ordinal) hit list the loaded-index search path feeds
into its result-assembly loop: the value of scores[0], indices[0] at
src/search_index.py line 144 (empty when no index is loaded or the
native search raises). -/
def Engine.searchRawHits (e : Engine) (query : List Int) (k : Nat) :
    List (Int × Int) :=
  match e.index with
  | some idx => (idx.searchK query k).getD []
  | none => []

/-- Projection of a search result to its hydrated payload, forgetting
the rank field. -/
def stripRank (r : SearchResult) : SentenceInfo × Int :=
  (r.info, r.similarity_score)

/-- Hydration step of the search loop viewed as a single function on a
raw hit: resolve the ordinal through id_mapping, then the sentence id
through the store, keeping the score (src/search_index.py lines
154-162). -/
def hydrateHit (db : EmbeddingDatabase) (m : List (Nat × Nat))
    (h : Int × Int) : Option (SentenceInfo × Int) :=
  (mappingGet m h.2).bind
    (fun sid => (db.get_sentence_by_id sid).map (fun info => (info, h.1)))

/-- Auxiliary view used to state claims: the number of document rows
holding a given path (the UNIQUE(file_path) constraint keeps it at most
one on states SQLite can reach). -/
def docCountByPath (db : EmbeddingDatabase) (p : String) : Nat :=
  (db.documents.filter (fun d => d.file_path == p)).length

/-- Sample store: one document and two embedded sentences of dimension
2, ids 1 and 2. -/
def sampleDb : EmbeddingDatabase :=
  ((EmbeddingDatabase.empty.add_document "a.md" "/docs/a.md").1.add_sentence_embedding
      1 "hello" 0 [1, 0]).add_sentence_embedding 1 "world" 1 [0, 1]

/-- Engine over `sampleDb` right after a successful flat build. -/
def builtEngine : Engine :=
  (Engine.mk sampleDb Disk.empty none [] none).build_index.1

/-- Engine exhibiting index/store drift: its loaded mapping sends
ordinal 0 to sentence id 5, which `sampleDb` does not contain, while
ordinal 1 resolves to the existing sentence 2. -/
def driftEngine : Engine :=
  ⟨sampleDb, Disk.empty, some ⟨2, [[1, 0], [0, 1]]⟩, [(0, 5), (1, 2)], some 2⟩

/-- Engine over an empty store with no artifacts and no loaded index. -/
def emptyEngine : Engine :=
  ⟨EmbeddingDatabase.empty, Disk.empty, none, [], none⟩

/-- Store with five embedded sentences (dimension 1), for the
small-corpus cluster-count scenario. -/
def fiveDb : EmbeddingDatabase :=
  (((((EmbeddingDatabase.empty.add_document "b.md" "/docs/b.md").1.add_sentence_embedding
      1 "s1" 0 [1]).add_sentence_embedding 1 "s2" 1 [2]).add_sentence_embedding
      1 "s3" 2 [3]).add_sentence_embedding 1 "s4" 3 [4]).add_sentence_embedding
      1 "s5" 4 [5]

end SentenceEmbedding

namespace SentenceEmbedding

/-- C1 counterexample: on a store whose established dimension is 2 (its
one embedding has length 2), inserting the length-3 vector [1, 2, 3]
does not fail: the sentence and embedding counts grow and the
wrong-length vector is stored as-is, contradicting the claim that such
an insert fails with DimensionMismatch and leaves counts unchanged. -/
theorem add_sentence_embedding_wrong_length_inserted :
    (sampleDb.get_stats = ⟨1, 2, 2⟩) ∧
    ((sampleDb.add_sentence_embedding 1 "third" 2 [1, 2, 3]).get_stats
      = ⟨1, 3, 3⟩) ∧
    ((sampleDb.add_sentence_embedding 1 "third" 2 [1, 2, 3]).get_all_embeddings
      = [(1, [1, 0]), (2, [0, 1]), (3, [1, 2, 3])]) := by
  decide

/-- C1 (amended): add_sentence_embedding performs no dimension check at
all — for every store and every vector, the insert succeeds, the
document count is unchanged, the sentence and embedding counts each
grow by one, and the row holding exactly the given vector is stored. -/
theorem add_sentence_embedding_unchecked_dimension
    (db : EmbeddingDatabase) (document_id : Nat) (text : String)
    (sidx : Nat) (v : List Int) :
    (db.add_sentence_embedding document_id text sidx v).get_stats =
      ⟨db.get_stats.documents, db.get_stats.sentences + 1,
       db.get_stats.embeddings + 1⟩ ∧
    (⟨db.next_sentence_id, document_id, text, sidx, some v⟩ : SentenceRec) ∈
      (db.add_sentence_embedding document_id text sidx v).sentences := by
  refine ⟨?_, ?_⟩
  · simp [EmbeddingDatabase.add_sentence_embedding, EmbeddingDatabase.get_stats,
      List.filter_append]
  · simp [EmbeddingDatabase.add_sentence_embedding]

/-- C3 counterexample: a store with five embeddings yields nlist =
min(100, 5 // 10) = 0 cluster lists, not the minimum of 1 the claim
asserts. -/
theorem ivfNlist_zero_below_ten :
    ivfNlist (fiveDb.get_all_embeddings).length = 0 ∧
    specNlist (fiveDb.get_all_embeddings).length = 1 ∧
    ivfNlist (fiveDb.get_all_embeddings).length ≠
      specNlist (fiveDb.get_all_embeddings).length := by
  decide

/-- C3 (amended): the ivf build computes its cluster count as
min(100, floor(N / 10)) with no minimum-1 clamp, so every store with
fewer than ten embeddings gets zero cluster lists. -/
theorem ivfNlist_formula_no_minimum (db : EmbeddingDatabase) :
    ivfNlist (db.get_all_embeddings).length =
      min 100 ((db.get_all_embeddings).length / 10) ∧
    ((db.get_all_embeddings).length < 10 →
      ivfNlist (db.get_all_embeddings).length = 0) := by
  refine ⟨rfl, fun h => ?_⟩
  simp only [ivfNlist]
  omega

/-- C3 witness: the amended cluster-count facts evaluated on the
five-embedding store. -/
theorem ivfNlist_formula_no_minimum_witness :
    ivfNlist (fiveDb.get_all_embeddings).length = 0 :=
  (ivfNlist_formula_no_minimum fiveDb).2 (by decide)

/-- Helper: a store whose embedding count is zero yields no rows from
get_all_embeddings. -/
theorem get_all_embeddings_eq_nil (db : EmbeddingDatabase)
    (h : db.get_stats.embeddings = 0) : db.get_all_embeddings = [] := by
  simp only [EmbeddingDatabase.get_stats] at h
  have hf : db.sentences.filter (fun s => s.embedding.isSome) = [] :=
    List.length_eq_zero.mp h
  simp [EmbeddingDatabase.get_all_embeddings, hf]

/-- Helper: whenever build_index reports failure it has changed nothing:
both failure paths (empty corpus and the exception swallowed by the
broad except) return before any attribute assignment. -/
theorem build_index_snd_false (e : Engine) (h : (e.build_index).2 = false) :
    (e.build_index).1 = e := by
  cases hge : e.db.get_all_embeddings with
  | nil => simp [Engine.build_index, hge]
  | cons p tl =>
      by_cases hall :
          ((p :: tl).all (fun q => decide (q.2.length = p.2.length))) = true
      · simp [Engine.build_index, hge, hall] at h
      · simp [Engine.build_index, hge, hall]

/-- C6: with at most one existing document row for a path (the
UNIQUE(file_path) invariant), two add_document calls with that path and
any filenames return the same id, the second call changes nothing, and
exactly one document row with that path remains. -/
theorem add_document_idempotent (db : EmbeddingDatabase)
    (f1 f2 p : String) (h : docCountByPath db p ≤ 1) :
    ((db.add_document f1 p).1.add_document f2 p).2 = (db.add_document f1 p).2 ∧
    ((db.add_document f1 p).1.add_document f2 p).1 = (db.add_document f1 p).1 ∧
    docCountByPath ((db.add_document f1 p).1.add_document f2 p).1 p = 1 := by
  cases hfind : db.documents.find? (fun d => d.file_path == p) with
  | some d =>
      have hmem : d ∈ db.documents := List.mem_of_find?_eq_some hfind
      have hpred : (d.file_path == p) = true := by
        simpa using List.find?_some hfind
      have hone : 1 ≤ docCountByPath db p := by
        have hmf : d ∈ db.documents.filter (fun d => d.file_path == p) :=
          List.mem_filter.mpr ⟨hmem, hpred⟩
        simpa [docCountByPath] using List.length_pos_of_mem hmf
      simp only [EmbeddingDatabase.add_document, hfind]
      exact ⟨trivial, trivial, le_antisymm h hone⟩
  | none =>
      have hnil : db.documents.filter (fun d => d.file_path == p) = [] :=
        List.filter_eq_nil_iff.mpr (by
          intro a ha
          simpa using List.find?_eq_none.mp hfind a ha)
      have hfind2 :
          (db.documents ++ [(⟨db.next_doc_id, f1, p⟩ : DocumentRec)]).find?
            (fun d => d.file_path == p) =
            some (⟨db.next_doc_id, f1, p⟩ : DocumentRec) := by
        rw [List.find?_append, hfind]
        simp
      simp only [EmbeddingDatabase.add_document, hfind, hfind2]
      refine ⟨trivial, trivial, ?_⟩
      simp [docCountByPath, List.filter_append, hnil]

/-- C6 witness: idempotent document creation evaluated on the empty
store with path "/p". -/
theorem add_document_idempotent_witness :
    ((EmbeddingDatabase.empty.add_document "a" "/p").1.add_document "b" "/p").2 =
      (EmbeddingDatabase.empty.add_document "a" "/p").2 ∧
    ((EmbeddingDatabase.empty.add_document "a" "/p").1.add_document "b" "/p").1 =
      (EmbeddingDatabase.empty.add_document "a" "/p").1 ∧
    docCountByPath
      ((EmbeddingDatabase.empty.add_document "a" "/p").1.add_document "b" "/p").1
      "/p" = 1 :=
  add_document_idempotent EmbeddingDatabase.empty "a" "b" "/p" (by decide)

/-- C7: on a store with zero embeddings, build_index fails (False)
leaving the whole engine state untouched, and a subsequent search on an
engine whose in-memory index is unset and whose artifacts are absent
takes the failed-lazy-load path: the distinguished unavailable outcome,
whose caller-visible value is the empty result list. -/
theorem build_index_empty_corpus (e : Engine)
    (h : e.db.get_stats.embeddings = 0) :
    e.build_index = (e, false) ∧
    (e.index = none → e.disk = Disk.empty →
      ∀ q k t, (e.search q k t).2 = SearchOutcome.unavailable ∧
        ((e.search q k t).2).results = []) := by
  have hnil : e.db.get_all_embeddings = [] := get_all_embeddings_eq_nil e.db h
  constructor
  · simp [Engine.build_index, hnil]
  · intro hidx hdisk q k t
    have hload : e.load_index = (e, false) := by
      simp [Engine.load_index, hdisk, Disk.empty]
    constructor <;>
      simp [Engine.search, hidx, hload, SearchOutcome.results]

/-- C7 witness: the empty-corpus scenario evaluated on the fresh engine
over the empty store. -/
theorem build_index_empty_corpus_witness :
    emptyEngine.build_index = (emptyEngine, false) ∧
    (emptyEngine.search [1, 0] 10 0).2 = SearchOutcome.unavailable :=
  ⟨(build_index_empty_corpus emptyEngine (by decide)).1,
   ((build_index_empty_corpus emptyEngine (by decide)).2 (by decide) (by decide)
     [1, 0] 10 0).1⟩

/-- Helper: the result-assembly loop distributes over list append, the
enumerate counter advancing by the length of the first part. -/
theorem processHits_append (db : EmbeddingDatabase) (m : List (Nat × Nat))
    (t : Int) (a b : List (Int × Int)) :
    ∀ i, processHits db m t i (a ++ b) =
      processHits db m t i a ++ processHits db m t (i + a.length) b := by
  induction a with
  | nil => intro i; simp [processHits]
  | cons hd tl ih =>
      intro i
      obtain ⟨s, x⟩ := hd
      have harith : i + (tl.length + 1) = i + 1 + tl.length := by omega
      by_cases hx : x = -1
      · simpa [processHits, hx, harith] using ih (i + 1)
      · by_cases hs : s < t
        · simpa [processHits, hx, hs, harith] using ih (i + 1)
        · cases hm : mappingGet m x with
          | none => simpa [processHits, hx, hs, hm, harith] using ih (i + 1)
          | some sid =>
              cases hg : db.get_sentence_by_id sid with
              | none =>
                  simpa [processHits, hx, hs, hm, hg, harith] using ih (i + 1)
              | some info =>
                  simpa [processHits, hx, hs, hm, hg, harith] using ih (i + 1)

/-- Helper: FAISS's -1-padded tail entries contribute no results. -/
theorem processHits_replicate_invalid (db : EmbeddingDatabase)
    (m : List (Nat × Nat)) (t : Int) (n : Nat) :
    ∀ i, processHits db m t i (List.replicate n (paddingScore, -1)) = [] := by
  induction n with
  | zero => intro i; rfl
  | succ n ih =>
      intro i
      simpa [List.replicate_succ, processHits] using ih (i + 1)

/-- Helper: every result of the assembly loop points back into the raw
hit list: its rank is the 1-based position (offset by the starting
counter) of a raw hit carrying its score. -/
theorem mem_processHits (db : EmbeddingDatabase) (m : List (Nat × Nat))
    (t : Int) :
    ∀ (hits : List (Int × Int)) (i : Nat) (r : SearchResult),
      r ∈ processHits db m t i hits →
      ∃ j h, hits[j]? = some h ∧ h.1 = r.similarity_score ∧
        r.rank = i + j + 1 := by
  intro hits
  induction hits with
  | nil => intro i r hr; simp [processHits] at hr
  | cons hd tl ih =>
      intro i r hr
      obtain ⟨s, x⟩ := hd
      by_cases hx : x = -1
      · simp only [processHits, if_pos hx] at hr
        obtain ⟨j, h, hj, h1, h2⟩ := ih (i + 1) r hr
        exact ⟨j + 1, h, by simpa using hj, h1, by omega⟩
      · by_cases hs : s < t
        · simp only [processHits, if_neg hx, if_pos hs] at hr
          obtain ⟨j, h, hj, h1, h2⟩ := ih (i + 1) r hr
          exact ⟨j + 1, h, by simpa using hj, h1, by omega⟩
        · cases hm : mappingGet m x with
          | none =>
              simp only [processHits, if_neg hx, if_neg hs, hm] at hr
              obtain ⟨j, h, hj, h1, h2⟩ := ih (i + 1) r hr
              exact ⟨j + 1, h, by simpa using hj, h1, by omega⟩
          | some sid =>
              cases hg : db.get_sentence_by_id sid with
              | none =>
                  simp only [processHits, if_neg hx, if_neg hs, hm, hg] at hr
                  obtain ⟨j, h, hj, h1, h2⟩ := ih (i + 1) r hr
                  exact ⟨j + 1, h, by simpa using hj, h1, by omega⟩
              | some info =>
                  simp only [processHits, if_neg hx, if_neg hs, hm, hg] at hr
                  rcases List.mem_cons.mp hr with hEq | hr2
                  · subst hEq
                    exact ⟨0, (s, x), by simp, rfl, rfl⟩
                  · obtain ⟨j, h, hj, h1, h2⟩ := ih (i + 1) r hr2
                    exact ⟨j + 1, h, by simpa using hj, h1, by omega⟩

/-- Helper: results produced from counter i carry ranks above i. -/
theorem processHits_rank_gt (db : EmbeddingDatabase) (m : List (Nat × Nat))
    (t : Int) (hits : List (Int × Int)) (i : Nat) (r : SearchResult)
    (hr : r ∈ processHits db m t i hits) : i < r.rank := by
  obtain ⟨j, h, hj, h1, h2⟩ := mem_processHits db m t hits i r hr
  omega

/-- Helper: ranks in the assembled result list are strictly
increasing. -/
theorem processHits_ranks_sorted (db : EmbeddingDatabase)
    (m : List (Nat × Nat)) (t : Int) :
    ∀ (hits : List (Int × Int)) (i : Nat),
      (processHits db m t i hits).Pairwise (fun a b => a.rank < b.rank) := by
  intro hits
  induction hits with
  | nil => intro i; simp [processHits]
  | cons hd tl ih =>
      intro i
      obtain ⟨s, x⟩ := hd
      by_cases hx : x = -1
      · simpa [processHits, hx] using ih (i + 1)
      · by_cases hs : s < t
        · simpa [processHits, hx, hs] using ih (i + 1)
        · cases hm : mappingGet m x with
          | none => simpa [processHits, hx, hs, hm] using ih (i + 1)
          | some sid =>
              cases hg : db.get_sentence_by_id sid with
              | none => simpa [processHits, hx, hs, hm, hg] using ih (i + 1)
              | some info =>
                  simp only [processHits, if_neg hx, if_neg hs, hm, hg]
                  refine List.pairwise_cons.mpr ⟨?_, ih (i + 1)⟩
                  intro r hr
                  exact processHits_rank_gt db m t tl (i + 1) r hr

/-- Helper: every result's score is the score of some raw hit. -/
theorem processHits_score_mem (db : EmbeddingDatabase)
    (m : List (Nat × Nat)) (t : Int) (hits : List (Int × Int)) (i : Nat)
    (r : SearchResult) (hr : r ∈ processHits db m t i hits) :
    ∃ h ∈ hits, h.1 = r.similarity_score := by
  obtain ⟨j, h, hj, h1, _⟩ := mem_processHits db m t hits i r hr
  exact ⟨h, List.getElem?_mem hj, h1⟩

/-- Helper: when the raw hits arrive in descending score order, so do
the assembled results. -/
theorem processHits_scores_sorted (db : EmbeddingDatabase)
    (m : List (Nat × Nat)) (t : Int) :
    ∀ (hits : List (Int × Int)) (i : Nat),
      hits.Pairwise (fun a b => b.1 ≤ a.1) →
      (processHits db m t i hits).Pairwise
        (fun a b => b.similarity_score ≤ a.similarity_score) := by
  intro hits
  induction hits with
  | nil => intro i _; simp [processHits]
  | cons hd tl ih =>
      intro i hp
      obtain ⟨s, x⟩ := hd
      rw [List.pairwise_cons] at hp
      obtain ⟨hhead, htl⟩ := hp
      by_cases hx : x = -1
      · simpa [processHits, hx] using ih (i + 1) htl
      · by_cases hs : s < t
        · simpa [processHits, hx, hs] using ih (i + 1) htl
        · cases hm : mappingGet m x with
          | none => simpa [processHits, hx, hs, hm] using ih (i + 1) htl
          | some sid =>
              cases hg : db.get_sentence_by_id sid with
              | none =>
                  simpa [processHits, hx, hs, hm, hg] using ih (i + 1) htl
              | some info =>
                  simp only [processHits, if_neg hx, if_neg hs, hm, hg]
                  refine List.pairwise_cons.mpr ⟨?_, ih (i + 1) htl⟩
                  intro r hr
                  obtain ⟨h, hmem, h1⟩ :=
                    processHits_score_mem db m t tl (i + 1) r hr
                  exact h1 ▸ hhead h hmem

/-- Helper: a successful native search returns a descending-sorted
score list truncated to k and padded with the -1 sentinel. -/
theorem searchK_eq (idx : FaissFlatIndex) (q : List Int) (k : Nat)
    (hits : List (Int × Int)) (h : idx.searchK q k = some hits) :
    ∃ sorted : List (Int × Int),
      sorted.Pairwise (fun a b => b.1 ≤ a.1) ∧
      hits = sorted.take k ++
        List.replicate (k - sorted.length) (paddingScore, -1) := by
  unfold FaissFlatIndex.searchK at h
  by_cases hd : q.length = idx.dim
  · rw [if_pos hd] at h
    haveI : IsTotal (Int × Int) (fun a b => b.1 ≤ a.1) :=
      ⟨fun a b => le_total b.1 a.1⟩
    haveI : IsTrans (Int × Int) (fun a b => b.1 ≤ a.1) :=
      ⟨fun a b c hab hbc => le_trans hbc hab⟩
    refine ⟨(idx.vectors.enum.map
        (fun p => (dot q p.2, (p.1 : Int)))).insertionSort
        (fun a b => b.1 ≤ a.1), ?_, ?_⟩
    · exact List.sorted_insertionSort _ _
    · exact (Option.some.inj h).symm
  · rw [if_neg hd] at h
    exact absurd h (by simp)

/-- C2 counterexample: on the drift engine the top hit hydrates to
nothing and is dropped, yet the surviving single result carries rank 2 —
the ranks of the returned sequence are not 1, 2, ..., len(results). -/
theorem search_rank_gap_on_dropped_hit :
    (((driftEngine.search [1, 0] 2 0).2).results.map (fun r => r.rank)
      = [2]) ∧
    ((driftEngine.search [1, 0] 2 0).2).results.length = 1 := by
  decide

/-- C2 (amended): results come back in descending score order and with
strictly increasing ranks, but each rank is the hit's 1-based position
in the raw nearest-neighbor hit list before any filtering (the enumerate
counter), so dropped hits leave gaps in the rank sequence. -/
theorem search_order_and_rank_semantics (e : Engine)
    (idx : FaissFlatIndex) (q : List Int) (k : Nat) (t : Int)
    (results : List SearchResult) (hidx : e.index = some idx)
    (hok : (e.search q k t).2 = SearchOutcome.ok results) :
    results.Pairwise (fun a b => b.similarity_score ≤ a.similarity_score) ∧
    results.Pairwise (fun a b => a.rank < b.rank) ∧
    ∀ r ∈ results, ∃ h, (e.searchRawHits q k)[r.rank - 1]? = some h ∧
      h.1 = r.similarity_score := by
  simp only [Engine.search, hidx] at hok
  cases hK : idx.searchK q k with
  | none =>
      rw [searchLoaded, hK] at hok
      exact absurd hok (by simp)
  | some hits =>
      simp only [searchLoaded, hK] at hok
      have hres : results = processHits e.db e.id_mapping t 0 hits :=
        (SearchOutcome.ok.inj hok).symm
      obtain ⟨sorted, hsort, hshape⟩ := searchK_eq idx q k hits hK
      subst hres
      refine ⟨?_, ?_, ?_⟩
      · rw [hshape, processHits_append, processHits_replicate_invalid,
          List.append_nil]
        exact processHits_scores_sorted e.db e.id_mapping t (sorted.take k) 0
          (List.Pairwise.sublist (List.take_sublist k sorted) hsort)
      · exact processHits_ranks_sorted e.db e.id_mapping t hits 0
      · intro r hr
        obtain ⟨j, h, hj, h1, h2⟩ :=
          mem_processHits e.db e.id_mapping t hits 0 r hr
        refine ⟨h, ?_, h1⟩
        have hj2 : r.rank - 1 = j := by omega
        rw [hj2]
        simp only [Engine.searchRawHits, hidx, hK, Option.getD_some]
        exact hj

/-- C2 witness: descending score order of the concrete search over the
built sample engine. -/
theorem search_order_and_rank_semantics_witness :
    (((builtEngine.search [1, 0] 2 0).2).results).Pairwise
      (fun a b => b.similarity_score ≤ a.similarity_score) :=
  (search_order_and_rank_semantics builtEngine ⟨2, [[1, 0], [0, 1]]⟩
    [1, 0] 2 0 ((builtEngine.search [1, 0] 2 0).2).results
    (by decide) (by decide)).1

/-- C4 counterexample: searching the built 2-dimensional sample index
with a length-3 query returns the caller the empty result list (via the
swallowed-exception path), not a surfaced DimensionMismatch. -/
theorem search_wrong_dimension_returns_empty :
    ((builtEngine.search [1, 0, 0] 2 0).2).results = [] ∧
    (builtEngine.search [1, 0, 0] 2 0).2 = SearchOutcome.failed := by
  decide

/-- C4 (amended): with a loaded index, a query whose length differs from
the index dimension makes search take the catch-all exception path and
return the empty result list — indistinguishable for the caller from a
query with no matches; no DimensionMismatch is surfaced. -/
theorem search_wrong_dimension_failed_outcome (e : Engine)
    (idx : FaissFlatIndex) (q : List Int) (k : Nat) (t : Int)
    (hidx : e.index = some idx) (hq : q.length ≠ idx.dim) :
    (e.search q k t).2 = SearchOutcome.failed ∧
    ((e.search q k t).2).results = [] := by
  have hK : idx.searchK q k = none := by
    unfold FaissFlatIndex.searchK
    rw [if_neg hq]
  constructor <;>
    simp [Engine.search, hidx, searchLoaded, hK, SearchOutcome.results]

/-- C4 witness: the wrong-dimension outcome evaluated on the built
sample engine. -/
theorem search_wrong_dimension_failed_outcome_witness :
    (builtEngine.search [9, 9, 9] 3 0).2 = SearchOutcome.failed :=
  (search_wrong_dimension_failed_outcome builtEngine ⟨2, [[1, 0], [0, 1]]⟩
    [9, 9, 9] 3 0 (by decide) (by decide)).1

/-- C8: the result-assembly loop is, up to the rank field, exactly:
discard hits with the invalid ordinal -1, then keep hits with score at
least the threshold, then hydrate; and among valid-ordinal hits,
membership in the threshold-filtered list holds exactly when the score
is at least the threshold. -/
theorem processHits_filter_pipeline (db : EmbeddingDatabase)
    (m : List (Nat × Nat)) (t : Int) (i : Nat)
    (hits : List (Int × Int)) :
    (processHits db m t i hits).map stripRank =
      ((hits.filter (fun h => h.2 ≠ -1)).filter
        (fun h => t ≤ h.1)).filterMap (hydrateHit db m) ∧
    ∀ h ∈ hits.filter (fun h => h.2 ≠ -1),
      (h ∈ (hits.filter (fun h => h.2 ≠ -1)).filter (fun h => t ≤ h.1) ↔
        t ≤ h.1) := by
  constructor
  · induction hits generalizing i with
    | nil => simp [processHits]
    | cons hd tl ih =>
        obtain ⟨s, x⟩ := hd
        by_cases hx : x = -1
        · simpa [processHits, hx, List.filter_cons] using ih (i + 1)
        · by_cases hs : s < t
          · have hns : ¬ t ≤ s := not_le.mpr hs
            simpa [processHits, hx, hs, hns, List.filter_cons]
              using ih (i + 1)
          · have hts : t ≤ s := not_lt.mp hs
            cases hm : mappingGet m x with
            | none =>
                simpa [processHits, hx, hs, hts, List.filter_cons,
                  List.filterMap_cons, hydrateHit, hm] using ih (i + 1)
            | some sid =>
                cases hg : db.get_sentence_by_id sid with
                | none =>
                    simpa [processHits, hx, hs, hts, List.filter_cons,
                      List.filterMap_cons, hydrateHit, hm, hg]
                      using ih (i + 1)
                | some info =>
                    simpa [processHits, hx, hs, hts, List.filter_cons,
                      List.filterMap_cons, hydrateHit, hm, hg, stripRank]
                      using ih (i + 1)
  · intro h hmem
    obtain ⟨hin, hne⟩ := List.mem_filter.mp hmem
    simp only [List.mem_filter, hmem, true_and]
    constructor
    · intro hd
      exact of_decide_eq_true hd
    · intro hd
      exact decide_eq_true hd

/-- C8 witness: the filter pipeline evaluated on a concrete hit list
over the sample store. -/
theorem processHits_filter_pipeline_witness :
    (processHits sampleDb [(0, 5), (1, 2)] 0 0 [(1, 0), (0, 1)]).map
      stripRank =
      ((([((1 : Int), (0 : Int)), (0, 1)]).filter
        (fun h => h.2 ≠ -1)).filter (fun h => (0 : Int) ≤ h.1)).filterMap
        (hydrateHit sampleDb [(0, 5), (1, 2)]) :=
  (processHits_filter_pipeline sampleDb [(0, 5), (1, 2)] 0 0
    [(1, 0), (0, 1)]).1

/-- C9: a raw hit whose mapped sentence id the store cannot hydrate is
silently dropped — the result list splits around it exactly as if only
that hit were removed, every other hit keeping its result and rank —
and a search over a loaded index with a matching query dimension always
returns the ok outcome (never an error), whatever the mapping and store
contain. -/
theorem search_drops_unresolved_hits (db : EmbeddingDatabase)
    (m : List (Nat × Nat)) (t : Int) (a b : List (Int × Int))
    (s x : Int) (sid : Nat) (i : Nat)
    (hm : mappingGet m x = some sid)
    (hg : db.get_sentence_by_id sid = none) :
    processHits db m t i (a ++ (s, x) :: b) =
      processHits db m t i a ++ processHits db m t (i + a.length + 1) b ∧
    ∀ (e : Engine) (idx : FaissFlatIndex) (q : List Int) (k : Nat),
      e.index = some idx → q.length = idx.dim →
      (e.search q k t).2 =
        SearchOutcome.ok (processHits e.db e.id_mapping t 0
          ((idx.searchK q k).getD [])) := by
  constructor
  · have hsingle : ∀ j, processHits db m t j [(s, x)] = [] := by
      intro j
      by_cases hx : x = -1
      · simp [processHits, hx]
      · by_cases hs : s < t
        · simp [processHits, hx, hs]
        · simp [processHits, hx, hs, hm, hg]
    have hsplit : a ++ (s, x) :: b = (a ++ [(s, x)]) ++ b := by simp
    rw [hsplit, processHits_append, processHits_append, hsingle,
      List.append_nil, List.length_append]
    rfl
  · intro e idx q k hidx hdim
    cases hK : idx.searchK q k with
    | none =>
        unfold FaissFlatIndex.searchK at hK
        rw [if_pos hdim] at hK
        exact absurd hK (by simp)
    | some hits =>
        simp [Engine.search, hidx, searchLoaded, hK]

/-- C9 witness: the drift scenario on the sample store — ordinal 0 maps
to the absent sentence 5, its hit is dropped, the hit resolving to
sentence 2 is still returned. -/
theorem search_drops_unresolved_hits_witness :
    processHits sampleDb [(0, 5), (1, 2)] 0 0 [(1, 0), (0, 1)] =
      processHits sampleDb [(0, 5), (1, 2)] 0 0 [] ++
        processHits sampleDb [(0, 5), (1, 2)] 0 1 [(0, 1)] :=
  (search_drops_unresolved_hits sampleDb [(0, 5), (1, 2)] 0 [] [(0, 1)]
    1 0 5 0 (by decide) (by decide)).1

/-- C5: under the primary-key invariant (sentence ids are unique),
get_all_embeddings returns pairs in strictly ascending sentence-id
order, contains exactly the sentences holding an embedding, and — being
a pure function of the store — returns the identical sequence when
called twice without intervening writes. -/
theorem get_all_embeddings_sorted_complete_stable (db : EmbeddingDatabase)
    (hn : (db.sentences.map (fun s => s.id)).Nodup) :
    db.get_all_embeddings.Pairwise (fun p q => p.1 < q.1) ∧
    (∀ sid v, (sid, v) ∈ db.get_all_embeddings ↔
      ∃ s ∈ db.sentences, s.id = sid ∧ s.embedding = some v) ∧
    db.get_all_embeddings = db.get_all_embeddings := by
  haveI : IsTotal SentenceRec (fun a b => a.id ≤ b.id) :=
    ⟨fun a b => le_total a.id b.id⟩
  haveI : IsTrans SentenceRec (fun a b => a.id ≤ b.id) :=
    ⟨fun a b c hab hbc => le_trans hab hbc⟩
  have hperm :
      ((db.sentences.filter (fun s => s.embedding.isSome)).insertionSort
        (fun a b => a.id ≤ b.id)).Perm
        (db.sentences.filter (fun s => s.embedding.isSome)) :=
    List.perm_insertionSort _ _
  have hsorted :
      ((db.sentences.filter (fun s => s.embedding.isSome)).insertionSort
        (fun a b => a.id ≤ b.id)).Pairwise (fun a b => a.id ≤ b.id) :=
    List.sorted_insertionSort _ _
  have hsub :
      ((db.sentences.filter (fun s => s.embedding.isSome)).map
        (fun s => s.id)).Sublist (db.sentences.map (fun s => s.id)) :=
    (List.filter_sublist db.sentences).map _
  have hnodup_l :
      ((db.sentences.filter (fun s => s.embedding.isSome)).map
        (fun s => s.id)).Nodup :=
    List.Nodup.sublist hsub hn
  have hnodup_srt :
      (((db.sentences.filter (fun s => s.embedding.isSome)).insertionSort
        (fun a b => a.id ≤ b.id)).map (fun s => s.id)).Nodup :=
    ((hperm.map (fun s => s.id)).symm).nodup hnodup_l
  have hpair_ne :
      ((db.sentences.filter (fun s => s.embedding.isSome)).insertionSort
        (fun a b => a.id ≤ b.id)).Pairwise (fun a b => a.id ≠ b.id) :=
    List.pairwise_map.mp hnodup_srt
  have hlt :
      ((db.sentences.filter (fun s => s.embedding.isSome)).insertionSort
        (fun a b => a.id ≤ b.id)).Pairwise (fun a b => a.id < b.id) :=
    (List.Pairwise.and hsorted hpair_ne).imp
      (fun h => lt_of_le_of_ne h.1 h.2)
  refine ⟨?_, ?_, rfl⟩
  · rw [EmbeddingDatabase.get_all_embeddings]
    refine List.pairwise_filterMap.mpr (hlt.imp ?_)
    intro a b hab x hx y hy
    simp only [Option.mem_def, Option.map_eq_some'] at hx hy
    obtain ⟨w, hw, hx'⟩ := hx
    obtain ⟨u, hu, hy'⟩ := hy
    rw [← hx', ← hy']
    exact hab
  · intro sid v
    rw [EmbeddingDatabase.get_all_embeddings, List.mem_filterMap]
    constructor
    · rintro ⟨s, hs, hgs⟩
      have hs2 : s ∈ db.sentences.filter (fun s => s.embedding.isSome) :=
        hperm.mem_iff.mp hs
      obtain ⟨hsent, _⟩ := List.mem_filter.mp hs2
      simp only [Option.map_eq_some'] at hgs
      obtain ⟨w, hw, heq⟩ := hgs
      injection heq with h1 h2
      exact ⟨s, hsent, h1, h2 ▸ hw⟩
    · rintro ⟨s, hs, hid, hemb⟩
      refine ⟨s, ?_, ?_⟩
      · exact hperm.mem_iff.mpr
          (List.mem_filter.mpr ⟨hs, by simp [hemb]⟩)
      · simp [hemb, hid]

/-- C5 witness: strict ascending id order evaluated on the sample
store. -/
theorem get_all_embeddings_sorted_complete_stable_witness :
    (sampleDb.get_all_embeddings).Pairwise (fun p q => p.1 < q.1) :=
  (get_all_embeddings_sorted_complete_stable sampleDb (by decide)).1

/-- C10: rebuild_index runs the new build on the cleared state (no
in-memory index, no mapping, both artifact files deleted), so whenever
that build fails — in particular over an empty store — the engine ends
with no index in memory and no persisted artifacts; the previous index
is not preserved. -/
theorem rebuild_index_no_previous_index_on_failure (e : Engine) :
    (e.db.get_stats.embeddings = 0 → (e.rebuild_index).2 = false) ∧
    ((e.rebuild_index).2 = false →
      (e.rebuild_index).1.index = none ∧
      (e.rebuild_index).1.id_mapping = [] ∧
      (e.rebuild_index).1.disk = Disk.empty) := by
  constructor
  · intro h
    have hnil : e.db.get_all_embeddings = [] := get_all_embeddings_eq_nil e.db h
    simp [Engine.rebuild_index, Engine.build_index, hnil]
  · intro h
    rw [Engine.rebuild_index] at h ⊢
    rw [build_index_snd_false _ h]
    exact ⟨rfl, rfl, rfl⟩

/-- C10 witness: a failed rebuild over the empty store leaves no index,
no mapping and no artifacts. -/
theorem rebuild_index_no_previous_index_on_failure_witness :
    (emptyEngine.rebuild_index).1.index = none ∧
    (emptyEngine.rebuild_index).1.id_mapping = [] ∧
    (emptyEngine.rebuild_index).1.disk = Disk.empty :=
  (rebuild_index_no_previous_index_on_failure emptyEngine).2
    ((rebuild_index_no_previous_index_on_failure emptyEngine).1 (by decide))

end SentenceEmbedding
